import Mathlib

/-!
Verification development for the rusty-celery core: the result-backend
abstraction (`src/backend/mod.rs`, `src/backend/redis.rs`,
`src/backend/mongo.rs`), the `AsyncResult` client handle
(`src/task/async_result.rs`) and the `Beat::start` reconnect supervision
loop (`src/beat/mod.rs`).  Rust code is shallowly embedded: stateful
backends become explicit state passing over pure stores, the async wait
loop becomes a function over the list of successive probe results, and
the beat loop becomes a fuelled state machine over scripts of
beat-loop/reconnect outcomes.
-/

/-- Lifecycle label of a task (`TaskState` in `src/task`; the variant list is
fixed by the spec and by the exhaustive matches in `redis.rs`). -/
inductive TaskState
  | Pending
  | Started
  | Retry
  | Success
  | Failure
deriving DecidableEq, Repr

/-- Modelled from the spec: `TaskError` is the worker-side failure description
stored as `traceback`; its definition is outside `src/`, so it is modelled as
an opaque description string. -/
structure TaskError where
  description : String
deriving DecidableEq, Repr

/-- Modelled from the spec: `DateTime<Utc>` timestamps (the `chrono` type used
by `ResultMetadata.date_done`) are modelled as an integer number of
milliseconds since the epoch. -/
structure DateTimeUtc where
  millis : Int
deriving DecidableEq, Repr

/-- Metadata of a task stored in the backend (`ResultMetadata`,
`src/backend/mod.rs` lines 138-150). -/
structure ResultMetadata where
  task_id : String
  status : TaskState
  result : Option String
  traceback : Option TaskError
  date_done : Option DateTimeUtc
deriving DecidableEq, Repr

/-- Backend error kinds (`BackendError`; the concrete enum is outside `src/`,
the variants used by the embedded code are `NotSet`, `DocumentNotFound`,
`Serialization` and `Transport`, exactly the subcases the spec lists). -/
inductive BackendError
  | NotSet
  | DocumentNotFound (task_id : String)
  | Serialization
  | Transport
deriving DecidableEq, Repr

deriving instance DecidableEq for Except

/-- Metadata written by `Backend::add_task` (`src/backend/mod.rs` lines
16-28): status `Pending`, everything else absent. -/
def add_task_metadata (task_id : String) : ResultMetadata :=
  { task_id := task_id
    status := TaskState.Pending
    result := none
    traceback := none
    date_done := none }

/-- Metadata written by `Backend::mark_as_started` (`src/backend/mod.rs`
lines 31-43). -/
def mark_as_started_metadata (task_id : String) : ResultMetadata :=
  { task_id := task_id
    status := TaskState.Started
    result := none
    traceback := none
    date_done := none }

/-- Metadata written by `Backend::mark_as_done` (`src/backend/mod.rs` lines
46-60): status `Success`, `result` and `date_done` set. -/
def mark_as_done_metadata (task_id : String) (result : String)
    (date_done : DateTimeUtc) : ResultMetadata :=
  { task_id := task_id
    status := TaskState.Success
    result := some result
    traceback := none
    date_done := some date_done }

/-- Metadata written by `Backend::mark_as_failure` (`src/backend/mod.rs`
lines 63-77): status `Failure`, `traceback` and `date_done` set. -/
def mark_as_failure_metadata (task_id : String) (traceback : TaskError)
    (date_done : DateTimeUtc) : ResultMetadata :=
  { task_id := task_id
    status := TaskState.Failure
    result := none
    traceback := some traceback
    date_done := some date_done }

/-- The record invariant stated by the spec for `ResultMetadata`: `result` is
present iff the status is `Success`, `traceback` is present iff the status is
`Failure`, and `date_done` is present iff the status is terminal. -/
def metadataInvariant (m : ResultMetadata) : Prop :=
  (m.result.isSome ↔ m.status = TaskState.Success) ∧
  (m.traceback.isSome ↔ m.status = TaskState.Failure) ∧
  (m.date_done.isSome ↔
    (m.status = TaskState.Success ∨ m.status = TaskState.Failure))

instance (m : ResultMetadata) : Decidable (metadataInvariant m) := by
  unfold metadataInvariant; infer_instance

/-- A JSON value, the target of `serde_json` serialization as used by the
Redis backend (`serde_json::to_string` / `from_str` in
`src/backend/redis.rs`); serialization is modelled at the JSON-value level. -/
inductive Json
  | null
  | str (s : String)
  | num (n : Int)

/-- Modelled from the spec: the wire encoding of `TaskState` uses the
uppercase Celery status strings. -/
def TaskState.toCeleryString : TaskState → String
  | TaskState.Pending => "PENDING"
  | TaskState.Started => "STARTED"
  | TaskState.Retry => "RETRY"
  | TaskState.Success => "SUCCESS"
  | TaskState.Failure => "FAILURE"

/-- Inverse of `TaskState.toCeleryString`, as produced by the derived
deserializer. -/
def TaskState.fromCeleryString : String → Option TaskState
  | "PENDING" => some TaskState.Pending
  | "STARTED" => some TaskState.Started
  | "RETRY" => some TaskState.Retry
  | "SUCCESS" => some TaskState.Success
  | "FAILURE" => some TaskState.Failure
  | _ => none

/-- Serialization of an optional string field: `None` becomes JSON null. -/
def serializeOptStr : Option String → Json
  | none => Json.null
  | some s => Json.str s

/-- Deserialization of an optional string field. -/
def deserializeOptStr : Json → Option (Option String)
  | Json.null => some none
  | Json.str s => some (some s)
  | _ => none

/-- The serialized form of a `ResultMetadata` record: the five fields of the
struct in declaration order, as the derived `Serialize` emits them.  The
object shape is kept as the ordered field list. -/
def serializeMetadata (m : ResultMetadata) : List (String × Json) :=
  [("task_id", Json.str m.task_id),
   ("status", Json.str m.status.toCeleryString),
   ("result", serializeOptStr m.result),
   ("traceback",
     match m.traceback with
     | none => Json.null
     | some t => Json.str t.description),
   ("date_done",
     match m.date_done with
     | none => Json.null
     | some d => Json.num d.millis)]

/-- Field lookup in a serialized object, as the derived `Deserialize` reads
named fields. -/
def jsonField (fields : List (String × Json)) (key : String) : Option Json :=
  match fields.find? (fun p => p.fst = key) with
  | some p => some p.snd
  | none => none

/-- The derived deserializer for `ResultMetadata`: read the five named fields
and rebuild the record; any missing or ill-typed field is a failure. -/
def deserializeMetadata (fields : List (String × Json)) :
    Option ResultMetadata :=
  match jsonField fields "task_id" with
  | some (Json.str tid) =>
    match jsonField fields "status" with
    | some (Json.str st) =>
      match TaskState.fromCeleryString st with
      | some status =>
        match (jsonField fields "result").bind deserializeOptStr with
        | some result =>
          match jsonField fields "traceback" with
          | some Json.null =>
            match jsonField fields "date_done" with
            | some Json.null =>
              some { task_id := tid, status := status, result := result,
                     traceback := none, date_done := none }
            | some (Json.num n) =>
              some { task_id := tid, status := status, result := result,
                     traceback := none, date_done := some ⟨n⟩ }
            | _ => none
          | some (Json.str tb) =>
            match jsonField fields "date_done" with
            | some Json.null =>
              some { task_id := tid, status := status, result := result,
                     traceback := some ⟨tb⟩, date_done := none }
            | some (Json.num n) =>
              some { task_id := tid, status := status, result := result,
                     traceback := some ⟨tb⟩, date_done := some ⟨n⟩ }
            | _ => none
          | _ => none
        | _ => none
      | none => none
    | _ => none
  | _ => none

theorem fromCeleryString_toCeleryString (s : TaskState) :
    TaskState.fromCeleryString s.toCeleryString = some s := by
  cases s <;> rfl

/-- State of the Redis key-value store reached through the backend: an
association list from keys to the stored (JSON-serialized) values
(`src/backend/redis.rs`). -/
abbrev RedisStore := List (String × List (String × Json))

/-- Key layout of the Redis backend: one string key `task:<task_id>` per task
(`format!` in `src/backend/redis.rs`). -/
def redisKey (task_id : String) : String := "task:" ++ task_id

/-- Redis `SET`: overwrite the value stored at a key. -/
def redisSet (st : RedisStore) (key : String) (v : List (String × Json)) :
    RedisStore :=
  (key, v) :: st.filter (fun p => p.fst != key)

/-- Redis `DEL`: remove a key. -/
def redisDel (st : RedisStore) (key : String) : RedisStore :=
  st.filter (fun p => p.fst != key)

/-- Redis `GET`/`EXISTS`: the value stored at a key, if any. -/
def redisLookup (st : RedisStore) (key : String) :
    Option (List (String × Json)) :=
  match st.find? (fun p => p.fst == key) with
  | some p => some p.snd
  | none => none

/-- `RedisBackend::store_result_inner` (`src/backend/redis.rs` lines 34-49):
`SET task:<id> <json>` when metadata is given, `DEL task:<id>` on `None`. -/
def redis_store_result_inner (st : RedisStore) (task_id : String)
    (metadata : Option ResultMetadata) : RedisStore :=
  match metadata with
  | some m => redisSet st (redisKey task_id) (serializeMetadata m)
  | none => redisDel st (redisKey task_id)

/-- `Backend::store_result` default method (`src/backend/mod.rs` lines
80-87). -/
def redis_store_result (st : RedisStore) (task_id : String)
    (m : ResultMetadata) : RedisStore :=
  redis_store_result_inner st task_id (some m)

/-- `Backend::forget` default method (`src/backend/mod.rs` lines 90-95). -/
def redis_forget (st : RedisStore) (task_id : String) : RedisStore :=
  redis_store_result_inner st task_id none

/-- `Backend::add_task` through the Redis backend. -/
def redis_add_task (st : RedisStore) (task_id : String) : RedisStore :=
  redis_store_result st task_id (add_task_metadata task_id)

/-- `Backend::mark_as_done` through the Redis backend. -/
def redis_mark_as_done (st : RedisStore) (task_id : String) (result : String)
    (date_done : DateTimeUtc) : RedisStore :=
  redis_store_result st task_id (mark_as_done_metadata task_id result date_done)

/-- `Backend::mark_as_failure` through the Redis backend. -/
def redis_mark_as_failure (st : RedisStore) (task_id : String)
    (traceback : TaskError) (date_done : DateTimeUtc) : RedisStore :=
  redis_store_result st task_id
    (mark_as_failure_metadata task_id traceback date_done)

/-- `RedisBackend::get_task_meta` (`src/backend/redis.rs` lines 51-63): fail
with `DocumentNotFound` when the key is absent, else parse the stored JSON. -/
def redis_get_task_meta (st : RedisStore) (task_id : String) :
    Except BackendError ResultMetadata :=
  match redisLookup st (redisKey task_id) with
  | none => Except.error (BackendError.DocumentNotFound task_id)
  | some v =>
    match deserializeMetadata v with
    | some m => Except.ok m
    | none => Except.error BackendError.Serialization

/-- `Backend::get_state` default method (`src/backend/mod.rs` lines
111-116). -/
def redis_get_state (st : RedisStore) (task_id : String) :
    Except BackendError TaskState :=
  (redis_get_task_meta st task_id).map (fun m => m.status)

/-- `Backend::get_result` default method (`src/backend/mod.rs` lines
119-124). -/
def redis_get_result (st : RedisStore) (task_id : String) :
    Except BackendError (Option String) :=
  (redis_get_task_meta st task_id).map (fun m => m.result)

/-- `Backend::get_traceback` default method (`src/backend/mod.rs` lines
127-132). -/
def redis_get_traceback (st : RedisStore) (task_id : String) :
    Except BackendError (Option TaskError) :=
  (redis_get_task_meta st task_id).map (fun m => m.traceback)

/-- Sleep duration between polling probes of the Redis wait loop
(`Duration::from_millis(200)` in `src/backend/redis.rs` line 90). -/
def redisWaitSleepMillis : Nat := 200

/-- `RedisBackend::wait_for_completion` (`src/backend/redis.rs` lines 64-92)
as a function of the successive metadata values the loop reads: break with
`true` on `Success` and `false` on `Failure`; on any other status sleep
200 ms and probe again.  The result carries the list of sleep durations
performed; `none` means the given probe sequence never ends the loop. -/
def wait_for_completion_run : List ResultMetadata → Option (Bool × List Nat)
  | [] => none
  | m :: rest =>
    match m.status with
    | TaskState.Success => some (true, [])
    | TaskState.Failure => some (false, [])
    | _ =>
      (wait_for_completion_run rest).map
        (fun p => (p.fst, redisWaitSleepMillis :: p.snd))

/-- Stated from the claim's words, for comparison with the code: the index of
the first probe at which `wait_for_task_state(id, target)` would return,
namely the first stored status equal to the target state or to a terminal
state. -/
def waitForTaskStateSpecStop (target : TaskState) :
    List TaskState → Option Nat
  | [] => none
  | s :: rest =>
    if s = target ∨ s = TaskState.Success ∨ s = TaskState.Failure then some 0
    else (waitForTaskStateSpecStop target rest).map (fun n => n + 1)

/-- State of the MongoDB task-meta collection: the documents in insertion
order (`src/backend/mongo.rs`). -/
abbrev MongoCollection := List ResultMetadata

/-- MongoDB `find_one` with filter on `task_id`: the first document matching
the filter. -/
def find_one (coll : MongoCollection) (task_id : String) :
    Option ResultMetadata :=
  coll.find? (fun d => d.task_id == task_id)

/-- MongoDB `delete_one` with filter on `task_id`: remove the first matching
document, if any. -/
def delete_one : MongoCollection → String → MongoCollection
  | [], _ => []
  | d :: rest, task_id =>
    if d.task_id = task_id then rest else d :: delete_one rest task_id

/-- MongoDB `insert_one`: append a new document. -/
def insert_one (coll : MongoCollection) (m : ResultMetadata) :
    MongoCollection :=
  coll ++ [m]

/-- MongoDB `replace_one` with filter on `task_id` (no upsert): replace the
first matching document; a no-op when none matches. -/
def replace_one : MongoCollection → String → ResultMetadata → MongoCollection
  | [], _, _ => []
  | d :: rest, task_id, m =>
    if d.task_id = task_id then m :: rest else d :: replace_one rest task_id m

/-- Which MongoDB driver write `store_result_inner` issued. -/
inductive MongoOp
  | insertOne
  | replaceOne
  | deleteOne
deriving DecidableEq, Repr

/-- `MongoBackend::store_result_inner` (`src/backend/mongo.rs` lines 56-77):
`delete_one` on `None`; `insert_one` when the metadata status is `Pending`;
`replace_one` (filter on `task_id`) otherwise.  Returns the new collection
together with the driver call used. -/
def mongo_store_result_inner (coll : MongoCollection) (task_id : String)
    (metadata : Option ResultMetadata) : MongoCollection × MongoOp :=
  match metadata with
  | none => (delete_one coll task_id, MongoOp.deleteOne)
  | some m =>
    if m.status = TaskState.Pending then (insert_one coll m, MongoOp.insertOne)
    else (replace_one coll task_id m, MongoOp.replaceOne)

/-- `Backend::forget` through the MongoDB backend. -/
def mongo_forget (coll : MongoCollection) (task_id : String) :
    MongoCollection :=
  (mongo_store_result_inner coll task_id none).fst

/-- `Backend::add_task` through the MongoDB backend. -/
def mongo_add_task (coll : MongoCollection) (task_id : String) :
    MongoCollection :=
  (mongo_store_result_inner coll task_id (some (add_task_metadata task_id))).fst

/-- `MongoBackend::get_task_meta` (`src/backend/mongo.rs` lines 79-89). -/
def mongo_get_task_meta (coll : MongoCollection) (task_id : String) :
    Except BackendError ResultMetadata :=
  match find_one coll task_id with
  | some d => Except.ok d
  | none => Except.error (BackendError.DocumentNotFound task_id)

/-- Number of documents of the collection matching the `task_id` filter. -/
def mongoCount (coll : MongoCollection) (task_id : String) : Nat :=
  coll.countP (fun d => d.task_id == task_id)

/-- Client-side handle for the result of a task
(`src/task/async_result.rs` lines 13-16): a task id and an optional
reference to the shared backend.  The backend's mutable store is passed
explicitly to each operation, so the handle keeps only the presence of the
reference. -/
structure AsyncResult where
  task_id : String
  backend : Option Unit

/-- `AsyncResult::throw_if_backend_not_set` (`src/task/async_result.rs`
lines 91-96). -/
def throw_if_backend_not_set (a : AsyncResult) : Except BackendError Unit :=
  match a.backend with
  | some _ => Except.ok ()
  | none => Except.error BackendError.NotSet

/-- `AsyncResult::state` (`src/task/async_result.rs` lines 72-76), returning
also the number of backend calls performed. -/
def AsyncResult.state (a : AsyncResult) (st : RedisStore) :
    Except BackendError TaskState × Nat :=
  match throw_if_backend_not_set a with
  | Except.error e => (Except.error e, 0)
  | Except.ok _ => (redis_get_state st a.task_id, 1)

/-- `AsyncResult::ready` (`src/task/async_result.rs` lines 41-46): the state
equals `Success` or `Failure`. -/
def AsyncResult.ready (a : AsyncResult) (st : RedisStore) :
    Except BackendError Bool × Nat :=
  match throw_if_backend_not_set a with
  | Except.error e => (Except.error e, 0)
  | Except.ok _ =>
    ((redis_get_state st a.task_id).map
      (fun s =>
        decide (s = TaskState.Success) || decide (s = TaskState.Failure)), 1)

/-- `AsyncResult::successful` (`src/task/async_result.rs` lines 79-84). -/
def AsyncResult.successful (a : AsyncResult) (st : RedisStore) :
    Except BackendError Bool × Nat :=
  match throw_if_backend_not_set a with
  | Except.error e => (Except.error e, 0)
  | Except.ok _ =>
    ((redis_get_state st a.task_id).map
      (fun s => decide (s = TaskState.Success)), 1)

/-- `AsyncResult::failed` (`src/task/async_result.rs` lines 27-31). -/
def AsyncResult.failed (a : AsyncResult) (st : RedisStore) :
    Except BackendError Bool × Nat :=
  match throw_if_backend_not_set a with
  | Except.error e => (Except.error e, 0)
  | Except.ok _ =>
    ((redis_get_state st a.task_id).map
      (fun s => decide (s = TaskState.Failure)), 1)

/-- `AsyncResult::traceback` (`src/task/async_result.rs` lines 65-69). -/
def AsyncResult.traceback (a : AsyncResult) (st : RedisStore) :
    Except BackendError (Option TaskError) × Nat :=
  match throw_if_backend_not_set a with
  | Except.error e => (Except.error e, 0)
  | Except.ok _ => (redis_get_traceback st a.task_id, 1)

/-- `AsyncResult::forget` (`src/task/async_result.rs` lines 34-38): the new
backend store on success. -/
def AsyncResult.forget (a : AsyncResult) (st : RedisStore) :
    Except BackendError RedisStore × Nat :=
  match throw_if_backend_not_set a with
  | Except.error e => (Except.error e, 0)
  | Except.ok _ => (Except.ok (redis_forget st a.task_id), 1)

/-- `AsyncResult::result::<T>` (`src/task/async_result.rs` lines 49-62):
`get_result` then deserialize the optional payload with the caller's type;
`fromStr` models `serde_json::from_str::<T>` and the conversion of its error
into a backend error is modelled from the spec as the `Serialization`
subcase. -/
def AsyncResult.result {α : Type} (a : AsyncResult) (st : RedisStore)
    (fromStr : String → Option α) : Except BackendError (Option α) × Nat :=
  match throw_if_backend_not_set a with
  | Except.error e => (Except.error e, 0)
  | Except.ok _ =>
    (match redis_get_result st a.task_id with
     | Except.error e => Except.error e
     | Except.ok none => Except.ok none
     | Except.ok (some s) =>
       match fromStr s with
       | none => Except.error BackendError.Serialization
       | some v => Except.ok (some v), 1)

/-- `AsyncResult::wait_for_completion` (`src/task/async_result.rs` lines
99-103): delegate to the backend's polling wait (one backend call). -/
def AsyncResult.wait_for_completion (a : AsyncResult)
    (probes : List ResultMetadata) :
    Except BackendError (Option (Bool × List Nat)) × Nat :=
  match throw_if_backend_not_set a with
  | Except.error e => (Except.error e, 0)
  | Except.ok _ => (Except.ok (wait_for_completion_run probes), 1)

/-- Broker error kinds (`BrokerError`; the concrete enum is outside `src/`,
modelled from the spec as a `connection`/`other` discriminant plus the
`NotConnected` variant named by `src/beat/mod.rs`). -/
inductive BrokerError
  | NotConnected
  | ConnectionError (tag : Nat)
  | OtherError (tag : Nat)
deriving DecidableEq, Repr

/-- `BrokerError::is_connection_error` — modelled from the spec's
connection/other discriminant; `NotConnected` is connection-classified. -/
def BrokerError.is_connection_error : BrokerError → Bool
  | BrokerError.NotConnected => true
  | BrokerError.ConnectionError _ => true
  | BrokerError.OtherError _ => false

/-- Beat error kinds (`BeatError`): a wrapped broker error or any other
scheduling fault. -/
inductive BeatError
  | BrokerError (e : BrokerError)
  | Other (tag : Nat)
deriving DecidableEq, Repr

/-- The connection-retry configuration carried by a `Beat` value
(`src/beat/mod.rs` lines 241-244). -/
structure BeatConfig where
  broker_connection_timeout : Nat
  broker_connection_retry : Bool
  broker_connection_max_retries : Nat
  broker_connection_retry_delay : Nat
deriving DecidableEq, Repr

/-- Observable effects of the reconnect supervision in `Beat::start`: the
sleeps (in seconds) and the `broker.reconnect(timeout)` invocations. -/
inductive BeatEvent
  | sleepSecs (secs : Nat)
  | reconnectCall (timeout : Nat)
deriving DecidableEq, Repr

/-- The reconnect `for` loop of `Beat::start` (`src/beat/mod.rs` lines
323-349): at most `n` attempts remain; each attempt sleeps
`broker_connection_retry_delay` seconds, then calls
`broker.reconnect(broker_connection_timeout)` whose outcome is `recRes j`
for the `j`-th reconnect call overall.  A connection-classified error
continues, any other error is returned, success breaks out.  Exhaustion
(`reconnect_successful` still false, lines 351-353) yields `NotConnected`.
Returns the events, the phase outcome (`ok` = resume the beat loop), and
the next reconnect-call index. -/
def reconnectPhase (cfg : BeatConfig) (recRes : Nat → Except BrokerError Unit) :
    Nat → Nat → List BeatEvent × (Except BeatError Unit × Nat)
  | 0, j => ([], (Except.error (BeatError.BrokerError BrokerError.NotConnected), j))
  | Nat.succ n, j =>
    let evs := [BeatEvent.sleepSecs cfg.broker_connection_retry_delay,
                BeatEvent.reconnectCall cfg.broker_connection_timeout]
    match recRes j with
    | Except.error err =>
      if err.is_connection_error then
        let r := reconnectPhase cfg recRes n (j + 1)
        (evs ++ r.fst, r.snd)
      else (evs, (Except.error (BeatError.BrokerError err), j + 1))
    | Except.ok _ => (evs, (Except.ok (), j + 1))

/-- `Beat::start` (`src/beat/mod.rs` lines 300-355) as a fuelled state
machine: `loopRes i` is the outcome of the `i`-th `beat_loop` invocation and
`recRes j` the outcome of the `j`-th `broker.reconnect` call.  Each outer
iteration runs `beat_loop`; with `broker_connection_retry` disabled the
result is returned as-is; an `Ok` or a non-connection error is returned;
a connection-classified broker error enters `reconnectPhase` with
`broker_connection_max_retries` attempts, returning its error or resuming
the loop on success.  `none` means the fuel ran out with the service still
running; the event list collects sleeps and reconnect calls. -/
def beatStart (cfg : BeatConfig) (loopRes : Nat → Except BeatError Unit)
    (recRes : Nat → Except BrokerError Unit) :
    Nat → Nat → Nat → Option (Except BeatError Unit) × List BeatEvent
  | 0, _, _ => (none, [])
  | Nat.succ fuel, i, j =>
    let result := loopRes i
    if cfg.broker_connection_retry = false then (some result, [])
    else
      match result with
      | Except.ok _ => (some (Except.ok ()), [])
      | Except.error (BeatError.Other t) =>
        (some (Except.error (BeatError.Other t)), [])
      | Except.error (BeatError.BrokerError be) =>
        if be.is_connection_error then
          let ph := reconnectPhase cfg recRes cfg.broker_connection_max_retries j
          match ph.snd.fst with
          | Except.error e2 => (some (Except.error e2), ph.fst)
          | Except.ok _ =>
            let rest := beatStart cfg loopRes recRes fuel (i + 1) ph.snd.snd
            (rest.fst, ph.fst ++ rest.snd)
        else (some (Except.error (BeatError.BrokerError be)), [])

/-- The event trace of `n` reconnect attempts: `n` sleep/reconnect pairs. -/
def evPairs (cfg : BeatConfig) : Nat → List BeatEvent
  | 0 => []
  | Nat.succ n =>
    [BeatEvent.sleepSecs cfg.broker_connection_retry_delay,
     BeatEvent.reconnectCall cfg.broker_connection_timeout] ++ evPairs cfg n

/-- Modelled from the spec: a routing rule carries a destination queue and
the membership test its compiled pattern denotes (pattern compilation itself
is out of scope per the spec). -/
structure Rule where
  matchesName : String → Bool
  queue : String

/-- Modelled from the spec: `routing::route(name, rules)` returns the queue
of the first configured rule matching the task name, if any. -/
def route (name : String) (rules : List Rule) : Option String :=
  match rules.find? (fun r => r.matchesName name) with
  | some r => some r.queue
  | none => none

/-- The parts of a task `Signature` that `schedule_named_task` consults: the
statically known task name `T::NAME` and the optional explicit queue. -/
structure SignatureModel where
  taskName : String
  queue : Option String

/-- A scheduler entry as registered by `schedule_named_task`: the display
name and the destination queue fixed at registration. -/
structure ScheduledEntry where
  name : String
  queue : String
deriving DecidableEq, Repr

/-- `Beat::schedule_named_task` (`src/beat/mod.rs` lines 277-297): the
destination queue is the signature's explicit queue if present, else
`routing::route(T::NAME, task_routes)`, else the default queue; the entry is
handed to the scheduler with that queue fixed. -/
def schedule_named_task (name : String) (sig : SignatureModel)
    (task_routes : List Rule) (default_queue : String) : ScheduledEntry :=
  let queue :=
    match sig.queue with
    | some q => q
    | none =>
      match route sig.taskName task_routes with
      | some q => q
      | none => default_queue
  { name := name, queue := queue }

/-- Concrete beat configuration for the reconnect witness: retry enabled,
two attempts, 5 s delay, 2 s timeout. -/
def cfgW : BeatConfig :=
  { broker_connection_timeout := 2
    broker_connection_retry := true
    broker_connection_max_retries := 2
    broker_connection_retry_delay := 5 }

/-- Beat-loop outcome script for the reconnect witness: every invocation
fails with a connection-classified broker error. -/
def loopResW : Nat → Except BeatError Unit :=
  fun _ => Except.error (BeatError.BrokerError (BrokerError.ConnectionError 0))

/-- Reconnect outcome script for the reconnect witness: every attempt fails
with a connection-classified broker error. -/
def recResW : Nat → Except BrokerError Unit :=
  fun _ => Except.error (BrokerError.ConnectionError 1)

/-- C3: every `ResultMetadata` record written by `add_task`,
`mark_as_started`, `mark_as_done` or `mark_as_failure` satisfies the record
invariant: `result` is present iff the status is `Success`, `traceback` is
present iff the status is `Failure`, and `date_done` is present iff the
status is `Success` or `Failure`. -/
theorem metadata_writers_invariant (task_id result : String)
    (traceback : TaskError) (date_done : DateTimeUtc) :
    metadataInvariant (add_task_metadata task_id) ∧
    metadataInvariant (mark_as_started_metadata task_id) ∧
    metadataInvariant (mark_as_done_metadata task_id result date_done) ∧
    metadataInvariant (mark_as_failure_metadata task_id traceback date_done) := by
  refine ⟨?_, ?_, ?_, ?_⟩ <;>
    simp [metadataInvariant, add_task_metadata, mark_as_started_metadata,
      mark_as_done_metadata, mark_as_failure_metadata]

/-- C9: serializing a `ResultMetadata` value and deserializing the result
yields a value equal to the original (hence equal in all five fields). -/
theorem serializeMetadata_roundTrip (m : ResultMetadata) :
    deserializeMetadata (serializeMetadata m) = some m := by
  obtain ⟨tid, st, res, tb, dd⟩ := m
  cases st <;> cases res <;> cases tb <;> cases dd <;> rfl

/-- C7: every operation of an `AsyncResult` whose backend reference is
absent returns the `NotSet` backend error and performs zero backend calls,
whatever the backend store or probe sequence holds. -/
theorem asyncResult_no_backend_notSet {α : Type} (task_id : String)
    (st : RedisStore) (probes : List ResultMetadata)
    (fromStr : String → Option α) :
    AsyncResult.state ⟨task_id, none⟩ st =
      (Except.error BackendError.NotSet, 0) ∧
    AsyncResult.result ⟨task_id, none⟩ st fromStr =
      (Except.error BackendError.NotSet, 0) ∧
    AsyncResult.traceback ⟨task_id, none⟩ st =
      (Except.error BackendError.NotSet, 0) ∧
    AsyncResult.ready ⟨task_id, none⟩ st =
      (Except.error BackendError.NotSet, 0) ∧
    AsyncResult.successful ⟨task_id, none⟩ st =
      (Except.error BackendError.NotSet, 0) ∧
    AsyncResult.failed ⟨task_id, none⟩ st =
      (Except.error BackendError.NotSet, 0) ∧
    AsyncResult.forget ⟨task_id, none⟩ st =
      (Except.error BackendError.NotSet, 0) ∧
    AsyncResult.wait_for_completion ⟨task_id, none⟩ probes =
      (Except.error BackendError.NotSet, 0) := by
  refine ⟨rfl, rfl, rfl, rfl, rfl, rfl, rfl, rfl⟩

theorem wait_run_of_split (pre : List ResultMetadata) (m : ResultMetadata)
    (post : List ResultMetadata)
    (hpre : ∀ x ∈ pre,
      x.status ≠ TaskState.Success ∧ x.status ≠ TaskState.Failure) :
    (m.status = TaskState.Success →
      wait_for_completion_run (pre ++ m :: post) =
        some (true, List.replicate pre.length redisWaitSleepMillis)) ∧
    (m.status = TaskState.Failure →
      wait_for_completion_run (pre ++ m :: post) =
        some (false, List.replicate pre.length redisWaitSleepMillis)) := by
  induction pre with
  | nil =>
    constructor <;> intro hs <;> simp [wait_for_completion_run, hs]
  | cons x rest ih =>
    have hx := hpre x (by simp)
    have hrest : ∀ y ∈ rest,
        y.status ≠ TaskState.Success ∧ y.status ≠ TaskState.Failure :=
      fun y hy => hpre y (by simp [hy])
    have ihr := ih hrest
    constructor <;> intro hs
    · have hr := ihr.1 hs
      cases hxs : x.status <;>
        simp_all [wait_for_completion_run, List.replicate_succ]
    · have hr := ihr.2 hs
      cases hxs : x.status <;>
        simp_all [wait_for_completion_run, List.replicate_succ]

theorem wait_run_split (probes : List ResultMetadata) (b : Bool)
    (sleeps : List Nat)
    (h : wait_for_completion_run probes = some (b, sleeps)) :
    ∃ pre m post, probes = pre ++ m :: post ∧
      sleeps = List.replicate pre.length redisWaitSleepMillis ∧
      (∀ x ∈ pre,
        x.status ≠ TaskState.Success ∧ x.status ≠ TaskState.Failure) ∧
      ((m.status = TaskState.Success ∧ b = true) ∨
       (m.status = TaskState.Failure ∧ b = false)) := by
  induction probes generalizing b sleeps with
  | nil => simp [wait_for_completion_run] at h
  | cons m rest ih =>
    cases hms : m.status
    case Success =>
      refine ⟨[], m, rest, by simp, ?_, by simp, Or.inl ⟨hms, ?_⟩⟩ <;>
        simp [wait_for_completion_run, hms] at h <;> simp [h.2, h.1]
    case Failure =>
      refine ⟨[], m, rest, by simp, ?_, by simp, Or.inr ⟨hms, ?_⟩⟩ <;>
        simp [wait_for_completion_run, hms] at h <;> simp [h.2, h.1]
    all_goals
      have hstep : wait_for_completion_run (m :: rest) =
          (wait_for_completion_run rest).map
            (fun p => (p.fst, redisWaitSleepMillis :: p.snd)) := by
        simp [wait_for_completion_run, hms]
      rw [hstep] at h
      cases hrest : wait_for_completion_run rest with
      | none => rw [hrest] at h; simp at h
      | some p =>
        rw [hrest] at h
        simp only [Option.map_some', Option.some.injEq, Prod.mk.injEq] at h
        obtain ⟨hb, hs⟩ := h
        obtain ⟨pre, mm, post, hsplit, hlen, hpre, hterm⟩ :=
          ih p.fst p.snd (by rw [hrest])
        refine ⟨m :: pre, mm, post, by simp [hsplit], ?_, ?_, ?_⟩
        · simp [← hs, hlen, List.replicate_succ]
        · intro x hx
          rcases List.mem_cons.mp hx with hx | hx
          · subst hx; simp [hms]
          · exact hpre x hx
        · rw [← hb]; exact hterm

/-- C1 (counterexample): the waiting primitive the code implements ignores
the requested target state.  With the stored statuses probed as
`[Started, Success]` and target state `Started`, the claim requires the wait
to return at the very first probe (stop index 0, before any sleep), but
`RedisBackend::wait_for_completion` — the only waiting implementation, also
the one `AsyncResult` calls — sleeps once more and returns only at the
`Success` probe. -/
theorem wait_for_task_state_counterexample :
    waitForTaskStateSpecStop TaskState.Started
        (List.map (fun m => m.status)
          [mark_as_started_metadata "id1",
           mark_as_done_metadata "id1" "r" ⟨0⟩]) = some 0 ∧
    wait_for_completion_run
        [mark_as_started_metadata "id1",
         mark_as_done_metadata "id1" "r" ⟨0⟩] =
      some (true, [redisWaitSleepMillis]) ∧
    [redisWaitSleepMillis] ≠ ([] : List Nat) := by
  refine ⟨by decide, by decide, by decide⟩

/-- C1 (amended): the polling wait of the Redis backend
(`wait_for_completion`) returns exactly at the first probe whose stored
status is terminal — `true` on `Success`, `false` on `Failure` — sleeping
200 ms between successive probes (one sleep per non-terminal probe) and
ignoring any non-terminal target state. -/
theorem wait_for_completion_spec :
    redisWaitSleepMillis = 200 ∧
    ∀ probes (b : Bool) (sleeps : List Nat),
      wait_for_completion_run probes = some (b, sleeps) ↔
        ∃ pre m post, probes = pre ++ m :: post ∧
          sleeps = List.replicate pre.length redisWaitSleepMillis ∧
          (∀ x ∈ pre,
            x.status ≠ TaskState.Success ∧ x.status ≠ TaskState.Failure) ∧
          ((m.status = TaskState.Success ∧ b = true) ∨
           (m.status = TaskState.Failure ∧ b = false)) := by
  refine ⟨rfl, fun probes b sleeps => ⟨wait_run_split probes b sleeps, ?_⟩⟩
  rintro ⟨pre, m, post, rfl, rfl, hpre, hterm⟩
  rcases hterm with ⟨hs, rfl⟩ | ⟨hs, rfl⟩
  · exact (wait_run_of_split pre m post hpre).1 hs
  · exact (wait_run_of_split pre m post hpre).2 hs

/-- C1 (witness): the amended characterization evaluated at the concrete
probe sequence `[Started, Success]`. -/
theorem wait_for_completion_spec_witness :
    wait_for_completion_run
        [mark_as_started_metadata "id1",
         mark_as_done_metadata "id1" "r" ⟨0⟩] =
      some (true, [redisWaitSleepMillis]) :=
  (wait_for_completion_spec.2
      [mark_as_started_metadata "id1", mark_as_done_metadata "id1" "r" ⟨0⟩]
      true [redisWaitSleepMillis]).mpr
    ⟨[mark_as_started_metadata "id1"], mark_as_done_metadata "id1" "r" ⟨0⟩,
      [], rfl, rfl, by decide, Or.inl ⟨rfl, rfl⟩⟩

/-- C6: for an `AsyncResult` with an attached backend and a stored record
for its task id, `ready` returns `true` iff the stored status is `Success`
or `Failure`, `successful` iff `Success`, `failed` iff `Failure`; and
`wait_for_completion` returns `true` when the probed status reaches
`Success` and `false` when it reaches `Failure`. -/
theorem asyncResult_observers (st : RedisStore) (id : String)
    (m : ResultMetadata) (h : redis_get_task_meta st id = Except.ok m) :
    ((AsyncResult.ready ⟨id, some ()⟩ st).fst = Except.ok true ↔
      (m.status = TaskState.Success ∨ m.status = TaskState.Failure)) ∧
    ((AsyncResult.successful ⟨id, some ()⟩ st).fst = Except.ok true ↔
      m.status = TaskState.Success) ∧
    ((AsyncResult.failed ⟨id, some ()⟩ st).fst = Except.ok true ↔
      m.status = TaskState.Failure) ∧
    ∀ pre mm post,
      (∀ x ∈ pre,
        x.status ≠ TaskState.Success ∧ x.status ≠ TaskState.Failure) →
      (mm.status = TaskState.Success →
        (AsyncResult.wait_for_completion ⟨id, some ()⟩
            (pre ++ mm :: post)).fst =
          Except.ok
            (some (true, List.replicate pre.length redisWaitSleepMillis))) ∧
      (mm.status = TaskState.Failure →
        (AsyncResult.wait_for_completion ⟨id, some ()⟩
            (pre ++ mm :: post)).fst =
          Except.ok
            (some (false, List.replicate pre.length redisWaitSleepMillis))) := by
  have hstate : redis_get_state st id = Except.ok m.status := by
    simp [redis_get_state, h, Except.map]
  refine ⟨?_, ?_, ?_, ?_⟩
  · simp [AsyncResult.ready, throw_if_backend_not_set, hstate, Except.map]
  · simp [AsyncResult.successful, throw_if_backend_not_set, hstate, Except.map]
  · simp [AsyncResult.failed, throw_if_backend_not_set, hstate, Except.map]
  · intro pre mm post hpre
    have hw := wait_run_of_split pre mm post hpre
    constructor <;> intro hs
    · simp [AsyncResult.wait_for_completion, throw_if_backend_not_set,
        hw.1 hs]
    · simp [AsyncResult.wait_for_completion, throw_if_backend_not_set,
        hw.2 hs]

/-- C6 (witness): the observers evaluated on the store obtained by marking
task `id1` done: `ready` returns `true`. -/
theorem asyncResult_observers_witness :
    redis_get_task_meta (redis_mark_as_done [] "id1" "ok" ⟨0⟩) "id1" =
      Except.ok (mark_as_done_metadata "id1" "ok" ⟨0⟩) ∧
    (AsyncResult.ready ⟨"id1", some ()⟩
        (redis_mark_as_done [] "id1" "ok" ⟨0⟩)).fst = Except.ok true :=
  ⟨rfl,
    ((asyncResult_observers (redis_mark_as_done [] "id1" "ok" ⟨0⟩) "id1"
        (mark_as_done_metadata "id1" "ok" ⟨0⟩) rfl).1).mpr (Or.inl rfl)⟩

theorem redisLookup_del (st : RedisStore) (key : String) :
    redisLookup (redisDel st key) key = none := by
  have hf : List.find? (fun p => p.fst == key)
      (List.filter (fun p => p.fst != key) st) = none := by
    rw [List.find?_eq_none]
    intro x hx
    have hmem := List.mem_filter.mp hx
    simpa using hmem.2
  unfold redisLookup redisDel
  rw [hf]

theorem find_one_countP_zero (coll : MongoCollection) (id : String)
    (h : coll.countP (fun d => d.task_id == id) = 0) :
    find_one coll id = none := by
  unfold find_one
  rw [List.find?_eq_none]
  exact List.countP_eq_zero.mp h

theorem find_one_delete_one (coll : MongoCollection) (id : String)
    (h : mongoCount coll id ≤ 1) :
    find_one (delete_one coll id) id = none := by
  induction coll with
  | nil => rfl
  | cons d rest ih =>
    by_cases hd : d.task_id = id
    · have hdel : delete_one (d :: rest) id = rest := by
        simp [delete_one, hd]
      rw [hdel]
      apply find_one_countP_zero
      have hc : mongoCount (d :: rest) id =
          rest.countP (fun d => d.task_id == id) + 1 := by
        simp [mongoCount, List.countP_cons, hd]
      have h2 := hc ▸ h
      omega
    · have hdel : delete_one (d :: rest) id = d :: delete_one rest id := by
        simp [delete_one, hd]
      rw [hdel]
      have hcount : mongoCount rest id ≤ 1 := by
        have hc : mongoCount (d :: rest) id = mongoCount rest id := by
          simp [mongoCount, List.countP_cons, hd]
        exact hc ▸ h
      have hrec := ih hcount
      unfold find_one at hrec ⊢
      rw [List.find?_cons_of_neg _ (by simp [hd])]
      exact hrec

theorem countP_replace_one (coll : MongoCollection) (id : String)
    (m : ResultMetadata) (hm : m.task_id = id) :
    mongoCount (replace_one coll id m) id = mongoCount coll id := by
  induction coll with
  | nil => rfl
  | cons d rest ih =>
    by_cases hd : d.task_id = id
    · simp [replace_one, hd, mongoCount, List.countP_cons, hm]
    · simp only [replace_one, hd, if_false]
      simp [mongoCount, List.countP_cons, hd] at ih ⊢
      exact ih

theorem countP_delete_one (coll : MongoCollection) (id : String) :
    mongoCount (delete_one coll id) id = mongoCount coll id - 1 := by
  induction coll with
  | nil => rfl
  | cons d rest ih =>
    by_cases hd : d.task_id = id
    · simp [delete_one, hd, mongoCount, List.countP_cons]
    · simp only [delete_one, hd, if_false]
      simp [mongoCount, List.countP_cons, hd] at ih ⊢
      have hz : rest.countP (fun x => x.task_id == id) =
          mongoCount rest id := rfl
      omega

/-- C4 (counterexample): with the MongoDB backend, two `add_task` writes for
the same id (each an `insert_one`, since every `Pending` write inserts)
leave two documents for the id; `forget` (a `delete_one`) removes only one,
so `get_task_meta` with no intervening writes still finds a document and
does not yield `DocumentNotFound`. -/
theorem mongo_forget_get_counterexample :
    mongo_get_task_meta
        (mongo_forget (mongo_add_task (mongo_add_task [] "id1") "id1") "id1")
        "id1" = Except.ok (add_task_metadata "id1") ∧
    Except.ok (add_task_metadata "id1") ≠
      (Except.error (BackendError.DocumentNotFound "id1") :
        Except BackendError ResultMetadata) := by
  refine ⟨by decide, by decide⟩

/-- C4 (amended): `forget(id)` followed by `get_task_meta(id)` with no
intervening writes yields `DocumentNotFound` — unconditionally for the
Redis backend, and for the MongoDB backend whenever the collection holds at
most one document for the id (duplicates are possible because every
`Pending` write is an `insert_one`). -/
theorem forget_then_get_docNotFound :
    (∀ st id, redis_get_task_meta (redis_forget st id) id =
      Except.error (BackendError.DocumentNotFound id)) ∧
    (∀ coll id, mongoCount coll id ≤ 1 →
      mongo_get_task_meta (mongo_forget coll id) id =
        Except.error (BackendError.DocumentNotFound id)) := by
  constructor
  · intro st id
    unfold redis_get_task_meta redis_forget redis_store_result_inner
    rw [redisLookup_del]
  · intro coll id h
    unfold mongo_get_task_meta mongo_forget mongo_store_result_inner
    rw [find_one_delete_one coll id h]

/-- C4 (witness): the amended statement applied to the empty Redis store and
to a MongoDB collection holding a single document for the id. -/
theorem forget_then_get_docNotFound_witness :
    redis_get_task_meta (redis_forget [] "id1") "id1" =
      Except.error (BackendError.DocumentNotFound "id1") ∧
    (mongoCount (mongo_add_task [] "id1") "id1" ≤ 1 ∧
      mongo_get_task_meta (mongo_forget (mongo_add_task [] "id1") "id1")
        "id1" = Except.error (BackendError.DocumentNotFound "id1")) :=
  ⟨forget_then_get_docNotFound.1 [] "id1",
   by decide,
   forget_then_get_docNotFound.2 (mongo_add_task [] "id1") "id1" (by decide)⟩

/-- C5 (counterexample): after a first `add_task` the document for the id is
present, yet the next `Pending` write for the same id is again issued with
`insert_one` — not with `replace_one` as the claim requires for every
subsequent update. -/
theorem mongo_second_pending_insert_counterexample :
    find_one (mongo_add_task [] "id1") "id1" =
      some (add_task_metadata "id1") ∧
    (mongo_store_result_inner (mongo_add_task [] "id1") "id1"
        (some (add_task_metadata "id1"))).snd = MongoOp.insertOne ∧
    MongoOp.insertOne ≠ MongoOp.replaceOne := by
  refine ⟨by decide, by decide, by decide⟩

/-- C5 (amended): the MongoDB backend chooses the driver call by the written
status, not by presence: `insert_one` on every write whose status is
`Pending` (appending a new document even when one already exists),
`replace_one` (locating the document by the `task_id` filter) on every write
with a non-`Pending` status, and `delete_one` on forget. -/
theorem mongo_store_result_inner_ops (coll : MongoCollection) (id : String)
    (m : ResultMetadata) :
    ((mongo_store_result_inner coll id (some m)).snd =
      if m.status = TaskState.Pending then MongoOp.insertOne
      else MongoOp.replaceOne) ∧
    (mongo_store_result_inner coll id none).snd = MongoOp.deleteOne ∧
    (m.status = TaskState.Pending →
      (mongo_store_result_inner coll id (some m)).fst = coll ++ [m]) ∧
    (m.status ≠ TaskState.Pending →
      (mongo_store_result_inner coll id (some m)).fst =
        replace_one coll id m) ∧
    (mongo_store_result_inner coll id none).fst = delete_one coll id ∧
    mongoCount (mongo_add_task coll id) id = mongoCount coll id + 1 ∧
    (m.status ≠ TaskState.Pending → m.task_id = id →
      mongoCount ((mongo_store_result_inner coll id (some m)).fst) id =
        mongoCount coll id) ∧
    mongoCount (mongo_forget coll id) id = mongoCount coll id - 1 := by
  refine ⟨?_, rfl, ?_, ?_, rfl, ?_, ?_, ?_⟩
  · by_cases hp : m.status = TaskState.Pending <;>
      simp [mongo_store_result_inner, hp]
  · intro hp; simp [mongo_store_result_inner, hp, insert_one]
  · intro hp; simp [mongo_store_result_inner, hp]
  · simp [mongo_add_task, mongo_store_result_inner, add_task_metadata,
      insert_one, mongoCount, List.countP_append, List.countP_cons]
  · intro hp hm
    simp only [mongo_store_result_inner, hp, if_false]
    exact countP_replace_one coll id m hm
  · unfold mongo_forget mongo_store_result_inner
    exact countP_delete_one coll id

/-- C5 (witness): the amended statement applied to the empty collection and
a `Success` write: the call used is `replace_one`, and a forget then removes
one document. -/
theorem mongo_store_result_inner_ops_witness :
    (mongo_store_result_inner [] "id1"
        (some (mark_as_done_metadata "id1" "r" ⟨0⟩))).snd =
      MongoOp.replaceOne ∧
    mongoCount (mongo_forget (mongo_add_task [] "id1") "id1") "id1" = 0 :=
  ⟨((mongo_store_result_inner_ops [] "id1"
        (mark_as_done_metadata "id1" "r" ⟨0⟩)).1).trans (by decide),
   ((mongo_store_result_inner_ops (mongo_add_task [] "id1") "id1"
        (mark_as_done_metadata "id1" "r" ⟨0⟩)).2.2.2.2.2.2.2).trans
      (by decide)⟩

theorem find_first_matching_rule (pre : List Rule) (r : Rule)
    (post : List Rule) (name : String)
    (hpre : ∀ r2 ∈ pre, r2.matchesName name = false)
    (hr : r.matchesName name = true) :
    route name (pre ++ r :: post) = some r.queue := by
  induction pre with
  | nil => simp [route, List.find?, hr]
  | cons x rest ih =>
    have hx := hpre x (by simp)
    have hrest : ∀ r2 ∈ rest, r2.matchesName name = false :=
      fun r2 h2 => hpre r2 (by simp [h2])
    have ihr := ih hrest
    unfold route at ihr ⊢
    rw [List.cons_append, List.find?_cons_of_neg _ (by simp [hx])]
    exact ihr

theorem route_none_of_no_match (rules : List Rule) (name : String)
    (hall : ∀ r ∈ rules, r.matchesName name = false) :
    route name rules = none := by
  unfold route
  have hf : rules.find? (fun r => r.matchesName name) = none := by
    rw [List.find?_eq_none]
    intro r hr
    simp [hall r hr]
  rw [hf]

/-- C8: the destination queue of an entry registered through
`schedule_named_task` is fixed at registration: the signature's explicit
queue when present; otherwise the queue of the first configured routing rule
matching the task name; otherwise the configured default queue. -/
theorem schedule_named_task_queue (name : String) (sig : SignatureModel)
    (task_routes : List Rule) (default_queue : String) :
    (∀ q, sig.queue = some q →
      (schedule_named_task name sig task_routes default_queue).queue = q) ∧
    (sig.queue = none →
      ∀ pre r post, task_routes = pre ++ r :: post →
        (∀ r2 ∈ pre, r2.matchesName sig.taskName = false) →
        r.matchesName sig.taskName = true →
        (schedule_named_task name sig task_routes default_queue).queue =
          r.queue) ∧
    (sig.queue = none →
      (∀ r ∈ task_routes, r.matchesName sig.taskName = false) →
      (schedule_named_task name sig task_routes default_queue).queue =
        default_queue) := by
  refine ⟨?_, ?_, ?_⟩
  · intro q hq
    simp [schedule_named_task, hq]
  · intro hq pre r post hsplit hpre hr
    subst hsplit
    simp [schedule_named_task, hq,
      find_first_matching_rule pre r post sig.taskName hpre hr]
  · intro hq hall
    simp [schedule_named_task, hq, route_none_of_no_match task_routes
      sig.taskName hall]

/-- C8 (witness): registration evaluated with an explicit signature queue,
with a matching second rule, and with no matching rule. -/
theorem schedule_named_task_queue_witness :
    (schedule_named_task "n" ⟨"tasks.add", some "q0"⟩ [] "celery").queue =
      "q0" ∧
    (schedule_named_task "n" ⟨"tasks.add", none⟩
        [⟨fun _ => false, "qa"⟩, ⟨fun _ => true, "qb"⟩] "celery").queue =
      "qb" ∧
    (schedule_named_task "n" ⟨"tasks.add", none⟩ [⟨fun _ => false, "qa"⟩]
        "celery").queue = "celery" :=
  ⟨(schedule_named_task_queue "n" ⟨"tasks.add", some "q0"⟩ [] "celery").1
      "q0" rfl,
   (schedule_named_task_queue "n" ⟨"tasks.add", none⟩
      [⟨fun _ => false, "qa"⟩, ⟨fun _ => true, "qb"⟩] "celery").2.1 rfl
      [⟨fun _ => false, "qa"⟩] ⟨fun _ => true, "qb"⟩ [] rfl
      (by intro r2 h2; simp at h2; simp [h2]) rfl,
   (schedule_named_task_queue "n" ⟨"tasks.add", none⟩
      [⟨fun _ => false, "qa"⟩] "celery").2.2 rfl
      (by intro r h2; simp at h2; simp [h2])⟩

/-- C10: with an attached backend and a stored record, `result` returns
`Ok(None)` when the record carries no result payload, and the
`Serialization` backend error (not a panic) when the stored payload fails to
deserialize as the requested type. -/
theorem asyncResult_result_payload {α : Type} (st : RedisStore) (id : String)
    (m : ResultMetadata) (fromStr : String → Option α)
    (h : redis_get_task_meta st id = Except.ok m) :
    (m.result = none →
      (AsyncResult.result ⟨id, some ()⟩ st fromStr).fst = Except.ok none) ∧
    (∀ s, m.result = some s → fromStr s = none →
      (AsyncResult.result ⟨id, some ()⟩ st fromStr).fst =
        Except.error BackendError.Serialization) := by
  have hres : redis_get_result st id = Except.ok m.result := by
    simp [redis_get_result, h, Except.map]
  constructor
  · intro hnone
    simp [AsyncResult.result, throw_if_backend_not_set, hres, hnone]
  · intro s hs hparse
    simp [AsyncResult.result, throw_if_backend_not_set, hres, hs, hparse]

/-- C10 (witness): evaluated on a store holding a `Pending` record with no
payload, and on a store holding a `Success` record whose payload the
requested type fails to parse. -/
theorem asyncResult_result_payload_witness :
    (AsyncResult.result ⟨"id1", some ()⟩ (redis_add_task [] "id1")
        (fun _ => (none : Option Nat))).fst = Except.ok none ∧
    (AsyncResult.result ⟨"id1", some ()⟩
        (redis_mark_as_done [] "id1" "notjson" ⟨0⟩)
        (fun _ => (none : Option Nat))).fst =
      Except.error BackendError.Serialization :=
  ⟨(asyncResult_result_payload (redis_add_task [] "id1") "id1"
      (add_task_metadata "id1") (fun _ => (none : Option Nat)) rfl).1 rfl,
   (asyncResult_result_payload (redis_mark_as_done [] "id1" "notjson" ⟨0⟩)
      "id1" (mark_as_done_metadata "id1" "notjson" ⟨0⟩)
      (fun _ => (none : Option Nat)) rfl).2 "notjson" rfl rfl⟩

theorem evPairs_join (cfg : BeatConfig) (n : Nat) :
    evPairs cfg n =
      List.flatten (List.replicate n
        [BeatEvent.sleepSecs cfg.broker_connection_retry_delay,
         BeatEvent.reconnectCall cfg.broker_connection_timeout]) := by
  induction n with
  | zero => rfl
  | succ n ih => simp [evPairs, List.replicate_succ, ih]

theorem reconnectPhase_exhaust (cfg : BeatConfig)
    (recRes : Nat → Except BrokerError Unit) (n j : Nat)
    (h : ∀ k, k < n → ∃ err, recRes (j + k) = Except.error err ∧
      err.is_connection_error = true) :
    reconnectPhase cfg recRes n j =
      (evPairs cfg n,
       (Except.error (BeatError.BrokerError BrokerError.NotConnected),
        j + n)) := by
  induction n generalizing j with
  | zero => simp [reconnectPhase, evPairs]
  | succ n ih =>
    obtain ⟨err, herr, hconn⟩ := h 0 (Nat.succ_pos n)
    have hj : recRes j = Except.error err := by simpa using herr
    have hrest : ∀ k, k < n → ∃ e2, recRes (j + 1 + k) = Except.error e2 ∧
        e2.is_connection_error = true := by
      intro k hk
      rw [show j + 1 + k = j + (k + 1) by omega]
      exact h (k + 1) (by omega)
    have ihr := ih (j + 1) hrest
    simp [reconnectPhase, hj, hconn, ihr, evPairs]
    omega

theorem reconnectPhase_success (cfg : BeatConfig)
    (recRes : Nat → Except BrokerError Unit) (n j k : Nat)
    (hk : k < n)
    (hpre : ∀ l, l < k → ∃ e2, recRes (j + l) = Except.error e2 ∧
      e2.is_connection_error = true)
    (hsucc : recRes (j + k) = Except.ok ()) :
    reconnectPhase cfg recRes n j =
      (evPairs cfg (k + 1), (Except.ok (), j + k + 1)) := by
  induction k generalizing n j with
  | zero =>
    cases n with
    | zero => omega
    | succ n =>
      have hj : recRes j = Except.ok () := by simpa using hsucc
      simp [reconnectPhase, hj, evPairs]
  | succ k ih =>
    cases n with
    | zero => omega
    | succ n =>
      obtain ⟨err, herr, hconn⟩ := hpre 0 (Nat.succ_pos k)
      have hj : recRes j = Except.error err := by simpa using herr
      have hpre2 : ∀ l, l < k → ∃ e2, recRes (j + 1 + l) = Except.error e2 ∧
          e2.is_connection_error = true := by
        intro l hl
        rw [show j + 1 + l = j + (l + 1) by omega]
        exact hpre (l + 1) (by omega)
      have hsucc2 : recRes (j + 1 + k) = Except.ok () := by
        rw [show j + 1 + k = j + (k + 1) by omega]
        exact hsucc
      have ihr := ih n (j + 1) (by omega) hpre2 hsucc2
      simp [reconnectPhase, hj, hconn, ihr, evPairs]
      omega

theorem reconnectPhase_nonconn (cfg : BeatConfig)
    (recRes : Nat → Except BrokerError Unit) (n j k : Nat)
    (err : BrokerError) (hk : k < n)
    (hpre : ∀ l, l < k → ∃ e2, recRes (j + l) = Except.error e2 ∧
      e2.is_connection_error = true)
    (herr : recRes (j + k) = Except.error err)
    (hnc : err.is_connection_error = false) :
    reconnectPhase cfg recRes n j =
      (evPairs cfg (k + 1),
       (Except.error (BeatError.BrokerError err), j + k + 1)) := by
  induction k generalizing n j with
  | zero =>
    cases n with
    | zero => omega
    | succ n =>
      have hj : recRes j = Except.error err := by simpa using herr
      simp [reconnectPhase, hj, hnc, evPairs]
  | succ k ih =>
    cases n with
    | zero => omega
    | succ n =>
      obtain ⟨e2, he2, hconn⟩ := hpre 0 (Nat.succ_pos k)
      have hj : recRes j = Except.error e2 := by simpa using he2
      have hpre2 : ∀ l, l < k → ∃ e3, recRes (j + 1 + l) = Except.error e3 ∧
          e3.is_connection_error = true := by
        intro l hl
        rw [show j + 1 + l = j + (l + 1) by omega]
        exact hpre (l + 1) (by omega)
      have herr2 : recRes (j + 1 + k) = Except.error err := by
        rw [show j + 1 + k = j + (k + 1) by omega]
        exact herr
      have ihr := ih n (j + 1) (by omega) hpre2 herr2
      simp [reconnectPhase, hj, hconn, ihr, evPairs]
      omega

/-- C2: after `beat_loop` fails with a connection-classified broker error
and `broker_connection_retry` is enabled, `Beat::start` invokes
`broker.reconnect(broker_connection_timeout)` up to
`broker_connection_max_retries` times, each attempt preceded by a sleep of
`broker_connection_retry_delay` seconds; a non-connection error from a
reconnect attempt is returned immediately, a successful reconnect resumes
the beat loop, exhausting every attempt returns the `NotConnected` broker
error, and with retry disabled the original result is propagated with no
reconnect attempt. -/
theorem beat_start_reconnect (cfg : BeatConfig)
    (loopRes : Nat → Except BeatError Unit)
    (recRes : Nat → Except BrokerError Unit) :
    (cfg.broker_connection_retry = false →
      ∀ fuel i j, beatStart cfg loopRes recRes (fuel + 1) i j =
        (some (loopRes i), [])) ∧
    (cfg.broker_connection_retry = true →
      ∀ fuel i j be, loopRes i = Except.error (BeatError.BrokerError be) →
        be.is_connection_error = false →
        beatStart cfg loopRes recRes (fuel + 1) i j =
          (some (Except.error (BeatError.BrokerError be)), [])) ∧
    (cfg.broker_connection_retry = true →
      ∀ fuel i j be, loopRes i = Except.error (BeatError.BrokerError be) →
        be.is_connection_error = true →
        (∀ k, k < cfg.broker_connection_max_retries →
          ∃ err, recRes (j + k) = Except.error err ∧
            err.is_connection_error = true) →
        beatStart cfg loopRes recRes (fuel + 1) i j =
          (some (Except.error
              (BeatError.BrokerError BrokerError.NotConnected)),
           evPairs cfg cfg.broker_connection_max_retries)) ∧
    (cfg.broker_connection_retry = true →
      ∀ fuel i j be k err,
        loopRes i = Except.error (BeatError.BrokerError be) →
        be.is_connection_error = true →
        k < cfg.broker_connection_max_retries →
        (∀ l, l < k → ∃ e2, recRes (j + l) = Except.error e2 ∧
          e2.is_connection_error = true) →
        recRes (j + k) = Except.error err →
        err.is_connection_error = false →
        beatStart cfg loopRes recRes (fuel + 1) i j =
          (some (Except.error (BeatError.BrokerError err)),
           evPairs cfg (k + 1))) ∧
    (cfg.broker_connection_retry = true →
      ∀ fuel i j be k,
        loopRes i = Except.error (BeatError.BrokerError be) →
        be.is_connection_error = true →
        k < cfg.broker_connection_max_retries →
        (∀ l, l < k → ∃ e2, recRes (j + l) = Except.error e2 ∧
          e2.is_connection_error = true) →
        recRes (j + k) = Except.ok () →
        beatStart cfg loopRes recRes (fuel + 1) i j =
          ((beatStart cfg loopRes recRes fuel (i + 1) (j + k + 1)).fst,
           evPairs cfg (k + 1) ++
             (beatStart cfg loopRes recRes fuel (i + 1) (j + k + 1)).snd)) ∧
    (∀ n, evPairs cfg n =
      List.flatten (List.replicate n
        [BeatEvent.sleepSecs cfg.broker_connection_retry_delay,
         BeatEvent.reconnectCall cfg.broker_connection_timeout])) := by
  refine ⟨?_, ?_, ?_, ?_, ?_, evPairs_join cfg⟩
  · intro hretry fuel i j
    simp [beatStart, hretry]
  · intro hretry fuel i j be hloop hnc
    simp [beatStart, hretry, hloop, hnc]
  · intro hretry fuel i j be hloop hconn hall
    have hph := reconnectPhase_exhaust cfg recRes
      cfg.broker_connection_max_retries j hall
    simp [beatStart, hretry, hloop, hconn, hph]
  · intro hretry fuel i j be k err hloop hconn hk hpre herr hnc
    have hph := reconnectPhase_nonconn cfg recRes
      cfg.broker_connection_max_retries j k err hk hpre herr hnc
    simp [beatStart, hretry, hloop, hconn, hph]
  · intro hretry fuel i j be k hloop hconn hk hpre hsucc
    have hph := reconnectPhase_success cfg recRes
      cfg.broker_connection_max_retries j k hk hpre hsucc
    simp [beatStart, hretry, hloop, hconn, hph]


/-- C2 (witness): with retry enabled, a connection-failing beat loop and
two reconnect attempts that both fail with connection errors, `start`
returns `NotConnected` after the two sleep-then-reconnect attempts. -/
theorem beat_start_reconnect_witness :
    beatStart cfgW loopResW recResW 1 0 0 =
      (some (Except.error
          (BeatError.BrokerError BrokerError.NotConnected)),
       evPairs cfgW 2) :=
  (beat_start_reconnect cfgW loopResW recResW).2.2.1 rfl 0 0 0
    (BrokerError.ConnectionError 0) rfl rfl
    (fun _ _ => ⟨BrokerError.ConnectionError 1, rfl, rfl⟩)
